import Mathlib

/-!
Verification of the STS client (`subaru.sts.client`): the binary packet
codec, frame reader and session logic of the `Radio` class, and the value
validation of the `Datum` class.  Bytes are modelled as `Nat` (values
0–255), byte strings as `List Nat`, Python `int` as `Int`, and IEEE-754
doubles by their 64-bit patterns (`Nat` below `2 ^ 64`), so that encoding
and decoding are exact byte-level functions.
-/

namespace Radio

/-- Modelled from the spec: wire-level protocol constants of the `Radio`
class (header size, numeric payload sizes, maximum frame size).  The
`radio.py` module itself is not in the source tree; these values follow
the spec's wire-layout table and the constants asserted by the tests. -/
def _HEADER_SIZE : Nat := 10

def _INTEGER_SIZE : Nat := 4

def _FLOAT_SIZE : Nat := 8

def _MAXIMUM_PACKET_SIZE : Nat := 127

/-- Byte budget for the text payload of a TEXT frame (117 bytes). -/
def textBudget : Nat := _MAXIMUM_PACKET_SIZE - _HEADER_SIZE

/-- Byte budget for the text part of an INTEGER_WITH_TEXT frame (113 bytes). -/
def intTextBudget : Nat := _MAXIMUM_PACKET_SIZE - _HEADER_SIZE - _INTEGER_SIZE

/-- Byte budget for the text part of a FLOAT_WITH_TEXT frame (109 bytes). -/
def floatTextBudget : Nat := _MAXIMUM_PACKET_SIZE - _HEADER_SIZE - _FLOAT_SIZE

/-- Big-endian 4-byte rendering of an unsigned 32-bit value
(`struct.pack` with network byte order). -/
def natToBytes4 (u : Nat) : List Nat :=
  [u / 16777216 % 256, u / 65536 % 256, u / 256 % 256, u % 256]

/-- Big-endian 8-byte rendering of an unsigned 64-bit value. -/
def natToBytes8 (u : Nat) : List Nat :=
  [u / 72057594037927936 % 256, u / 281474976710656 % 256,
   u / 1099511627776 % 256, u / 4294967296 % 256,
   u / 16777216 % 256, u / 65536 % 256, u / 256 % 256, u % 256]

/-- Big-endian byte-string to unsigned value. -/
def bytesToNatBE (l : List Nat) : Nat :=
  l.foldl (fun acc b => 256 * acc + b) 0

/-- `struct.pack` of a signed 32-bit integer, network byte order
(two's complement). -/
def int32ToBytes (v : Int) : List Nat :=
  natToBytes4 ((v % 4294967296).toNat)

/-- `struct.unpack` of a signed 32-bit integer, network byte order. -/
def bytesToInt32 (l : List Nat) : Int :=
  let u := bytesToNatBE l
  if u < 2147483648 then (u : Int) else (u : Int) - 4294967296

/-- The tagged payload of a record (`Datum.value`), with the active member
determined by the format tag.  Doubles are carried as 64-bit patterns. -/
inductive Value where
  | int (n : Int)
  | float (bits : Nat)
  | text (s : List Nat)
  | intText (n : Int) (s : List Nat)
  | floatText (bits : Nat) (s : List Nat)
deriving DecidableEq

/-- The record exchanged on the wire: identifier, format tag (0–5),
timestamp in whole seconds (the code truncates fractional seconds before
packing) and tagged value. -/
structure Datum where
  id : Int
  format : Nat
  timestamp : Int
  value : Value
deriving DecidableEq

/-- Modelled from the spec: the per-format payload encoding of
`Radio.pack` (`radio.py` is absent from the source tree).  INTEGER packs a
4-byte signed integer; FLOAT and EXPONENT an 8-byte double; the text
formats truncate the trailing text to the remaining budget; a format tag
outside 0–5 is the `Invalid data type` error. -/
def packPayload (fmt : Nat) (v : Value) : Except String (List Nat) :=
  if fmt = 0 then
    match v with
    | .int n => .ok (int32ToBytes n)
    | _ => .error "Value does not match format"
  else if fmt = 1 ∨ fmt = 5 then
    match v with
    | .float b => .ok (natToBytes8 b)
    | _ => .error "Value does not match format"
  else if fmt = 2 then
    match v with
    | .text s => .ok (s.take textBudget)
    | _ => .error "Value does not match format"
  else if fmt = 3 then
    match v with
    | .intText n s => .ok (int32ToBytes n ++ s.take intTextBudget)
    | _ => .error "Value does not match format"
  else if fmt = 4 then
    match v with
    | .floatText b s => .ok (natToBytes8 b ++ s.take floatTextBudget)
    | _ => .error "Value does not match format"
  else .error "Invalid data type"

/-- Modelled from the spec: `Radio.pack`.  A fixed 10-byte header — total
length OR-ed with `0x80`, 4-byte signed identifier, format tag, 4-byte
signed timestamp — followed by the per-format payload. -/
def pack (d : Datum) : Except String (List Nat) :=
  match packPayload d.format d.value with
  | .error e => .error e
  | .ok p =>
    .ok (((_HEADER_SIZE + p.length) ||| 128) ::
          int32ToBytes d.id ++ d.format :: int32ToBytes d.timestamp ++ p)

/-- Modelled from the spec: the per-format payload decoding of
`Radio.unpack`; any bytes after a fixed-size numeric prefix are the text
component. -/
def unpackPayload (fmt : Nat) (body : List Nat) : Except String Value :=
  if fmt = 0 then
    if body.length < 4 then .error "Unpack requires more data"
    else .ok (.int (bytesToInt32 (body.take 4)))
  else if fmt = 1 ∨ fmt = 5 then
    if body.length < 8 then .error "Unpack requires more data"
    else .ok (.float (bytesToNatBE (body.take 8)))
  else if fmt = 2 then .ok (.text body)
  else if fmt = 3 then
    if body.length < 4 then .error "Unpack requires more data"
    else .ok (.intText (bytesToInt32 (body.take 4)) (body.drop 4))
  else if fmt = 4 then
    if body.length < 8 then .error "Unpack requires more data"
    else .ok (.floatText (bytesToNatBE (body.take 8)) (body.drop 8))
  else .error "Invalid data type"

/-- Modelled from the spec: `Radio.unpack`.  Rejects a missing `0x80`
flag (`Invalid packet header`), a declared length differing from the
actual byte count (`Invalid packet size`), and a format tag outside 0–5
(`Invalid data type`); otherwise reads the fixed-offset header fields and
the payload. -/
def unpack (packet : List Nat) : Except String Datum :=
  match packet with
  | [] => .error "Invalid packet header"
  | b0 :: rest =>
    if b0 &&& 128 = 0 then .error "Invalid packet header"
    else if ¬ (b0 &&& 127 = rest.length + 1) then .error "Invalid packet size"
    else
      match rest with
      | i1 :: i2 :: i3 :: i4 :: fmt :: t1 :: t2 :: t3 :: t4 :: body =>
        if 5 < fmt then .error "Invalid data type"
        else
          match unpackPayload fmt body with
          | .error e => .error e
          | .ok v =>
            .ok ⟨bytesToInt32 [i1, i2, i3, i4], fmt,
                 bytesToInt32 [t1, t2, t3, t4], v⟩
      | _ => .error "Unpack requires more data"

/-- A structurally valid record: the value's shape matches the format tag,
the identifier, timestamp and numeric payloads are representable in their
wire widths, and text characters are single bytes (0–255). -/
def validValue (fmt : Nat) (v : Value) : Bool :=
  match v with
  | .int n => fmt == 0 && decide (-2147483648 ≤ n) && decide (n < 2147483648)
  | .float b => (fmt == 1 || fmt == 5) && decide (b < 18446744073709551616)
  | .text s => fmt == 2 && s.all (fun c => decide (c < 256))
  | .intText n s => fmt == 3 && decide (-2147483648 ≤ n) &&
      decide (n < 2147483648) && s.all (fun c => decide (c < 256))
  | .floatText b s => fmt == 4 && decide (b < 18446744073709551616) &&
      s.all (fun c => decide (c < 256))

/-- A structurally valid record (see `validValue`), with identifier and
timestamp in signed 32-bit range. -/
def validDatum (d : Datum) : Bool :=
  decide (-2147483648 ≤ d.id) && decide (d.id < 2147483648) &&
  decide (-2147483648 ≤ d.timestamp) && decide (d.timestamp < 2147483648) &&
  validValue d.format d.value

/-- The encoded text payload fits the 127-byte frame cap (trivially true
for the formats without text). -/
def textFits (d : Datum) : Bool :=
  match d.value with
  | .text s => decide (s.length ≤ textBudget)
  | .intText _ s => decide (s.length ≤ intTextBudget)
  | .floatText _ s => decide (s.length ≤ floatTextBudget)
  | _ => true

/-- The text payload overflows the 127-byte frame cap. -/
def textOverflows (d : Datum) : Bool :=
  match d.value with
  | .text s => decide (textBudget < s.length)
  | .intText _ s => decide (intTextBudget < s.length)
  | .floatText _ s => decide (floatTextBudget < s.length)
  | _ => false

/-- Truncation of the trailing text to the per-format byte budget; the
numeric prefix is untouched and non-text values are unchanged. -/
def truncValue (fmt : Nat) (v : Value) : Value :=
  match fmt, v with
  | 2, .text s => .text (s.take textBudget)
  | 3, .intText n s => .intText n (s.take intTextBudget)
  | 4, .floatText b s => .floatText b (s.take floatTextBudget)
  | _, v => v

/-- The record with its trailing text truncated to the format's budget. -/
def truncDatum (d : Datum) : Datum :=
  ⟨d.id, d.format, d.timestamp, truncValue d.format d.value⟩

/-- IEEE-754 double: the 64-bit pattern is a NaN (exponent field all ones,
nonzero mantissa). -/
def float64IsNaN (b : Nat) : Bool :=
  decide (b / 4503599627370496 % 2048 = 2047) &&
  decide (¬ (b % 4503599627370496 = 0))

/-- IEEE-754 double: the pattern is a (positive or negative) zero. -/
def float64IsZero (b : Nat) : Bool :=
  decide (b % 9223372036854775808 = 0)

/-- IEEE-754 equality on 64-bit patterns: NaN compares unequal to
everything (itself included); `+0` equals `-0`. -/
def float64Eq (a b : Nat) : Bool :=
  !float64IsNaN a && !float64IsNaN b &&
  (a == b || (float64IsZero a && float64IsZero b))

/-- Bit pattern of the IEEE-754 double `+inf`. -/
def float64PosInf : Nat := 9218868437227405312

/-- Bit pattern of the IEEE-754 double `-inf`. -/
def float64NegInf : Nat := 18442240474082181120

/-- Bit pattern of the IEEE-754 quiet NaN produced by `float(nan)`. -/
def float64NaN : Nat := 9221120237041090560

/-- Modelled from the spec: `Radio._recvn` (`radio.py` is absent from the
source tree), the exact-read primitive.  It loops until `n` bytes are
accumulated.  Each element of `stream` is what one `socket.recv` call
delivers; only the requested remainder of a chunk is consumed (a socket
never returns more than asked), and a zero-byte chunk means the peer
closed the connection, the `Connection closed by peer` error. -/
def recvn (stream : List (List Nat)) (n : Nat) : Except String (List Nat) :=
  match n, stream with
  | 0, _ => .ok []
  | _ + 1, [] => .error "Connection closed by peer"
  | m + 1, c :: cs =>
    if c.length = 0 then .error "Connection closed by peer"
    else
      match recvn cs (m + 1 - (c.take (m + 1)).length) with
      | .error e => .error e
      | .ok rest => .ok (c.take (m + 1) ++ rest)

/-- One observable action on the session's TCP socket. -/
inductive NetEv where
  | connect
  | send (bytes : List Nat)
  | close

/-- The action is a socket close. -/
def isClose : NetEv → Bool
  | .close => true
  | _ => false

/-- The remote end of one session: whether connecting succeeds, the
handshake lines the server will send, and the frames it will deliver. -/
structure Wire where
  connectOk : Bool
  lines : List (List Nat)
  frames : List (List Nat)

/-- Modelled from the spec: a handshake response line is accepted exactly
when it begins with the success marker `OK` (bytes 79, 75). -/
def lineOk (line : List Nat) : Bool := line.take 2 == [79, 75]

/-- Modelled from the spec: the per-identifier loop of `Radio.receive`.
Each identifier is written as a 4-byte signed network-order integer, one
frame is read and decoded in reply, and after the last identifier the
sentinel −1 is written in the same 4-byte form.  A missing frame is the
peer-closed transport error; a frame `unpack` rejects aborts the loop
with that error. -/
def receiveLoop : List Int → List (List Nat) → List NetEv × Except String (List Datum)
  | [], _ => ([NetEv.send (int32ToBytes (-1))], Except.ok [])
  | i :: _, [] => ([NetEv.send (int32ToBytes i)], Except.error "Connection closed by peer")
  | i :: rest, f :: fs =>
    match unpack f with
    | .error e => ([NetEv.send (int32ToBytes i)], .error e)
    | .ok d =>
      (NetEv.send (int32ToBytes i) :: (receiveLoop rest fs).1,
       (receiveLoop rest fs).2.map (fun l => d :: l))

/-- Modelled from the spec: the body of `Radio.receive` — connect, send
`R\n`, read one line and require the success marker, then run the
per-identifier loop.  The trace records the socket actions performed. -/
def receiveBody (w : Wire) (ids : List Int) : List NetEv × Except String (List Datum) :=
  if w.connectOk = false then ([NetEv.connect], .error "Connection refused")
  else if lineOk (w.lines.headD []) = false then
    ([NetEv.connect, NetEv.send [82, 10]], .error "Invalid response")
  else
    (NetEv.connect :: NetEv.send [82, 10] :: (receiveLoop ids w.frames).1,
     (receiveLoop ids w.frames).2)

/-- Modelled from the spec: `Radio.receive` — the body wrapped in the
guaranteed-cleanup discipline that closes the socket on every exit path
(`try/finally` around the session body). -/
def receive (w : Wire) (ids : List Int) : List NetEv × Except String (List Datum) :=
  ((receiveBody w ids).1 ++ [NetEv.close], (receiveBody w ids).2)

/-- Modelled from the spec: the per-record loop of `Radio.transmit`: each
record is encoded with `pack` and the raw frame written; a `pack` failure
aborts the loop with that error. -/
def transmitLoop : List Datum → List NetEv × Except String Unit
  | [] => ([], .ok ())
  | d :: rest =>
    match pack d with
    | .error e => ([], .error e)
    | .ok bytes => (NetEv.send bytes :: (transmitLoop rest).1, (transmitLoop rest).2)

/-- Modelled from the spec: the body of `Radio.transmit` — connect, send
`W\n`, read one line requiring the success marker, write every encoded
frame, send the empty line to exit write mode, read one line with the
same validation, then send `Q\n`. -/
def transmitBody (w : Wire) (data : List Datum) : List NetEv × Except String Unit :=
  if w.connectOk = false then ([NetEv.connect], .error "Connection refused")
  else if lineOk (w.lines.headD []) = false then
    ([NetEv.connect, NetEv.send [87, 10]], .error "Invalid response")
  else
    match transmitLoop data with
    | (evs, .error e) => (NetEv.connect :: NetEv.send [87, 10] :: evs, .error e)
    | (evs, .ok _) =>
      if lineOk (w.lines.getD 1 []) = false then
        (NetEv.connect :: NetEv.send [87, 10] :: evs ++ [NetEv.send [10]],
         .error "Invalid response")
      else
        (NetEv.connect :: NetEv.send [87, 10] :: evs ++
          [NetEv.send [10], NetEv.send [81, 10]], .ok ())

/-- Modelled from the spec: `Radio.transmit` — the body wrapped in the
guaranteed-cleanup discipline that closes the socket on every exit path. -/
def transmit (w : Wire) (data : List Datum) : List NetEv × Except String Unit :=
  ((transmitBody w data).1 ++ [NetEv.close], (transmitBody w data).2)

end Radio

/-- A dynamic (Python) value as seen by `Datum.__init__`: `None`, `bool`,
`int`, `float` (by bit pattern), `str`, or a tuple.  `bool` is its own
constructor; the Python fact that `bool` is a subtype of `int` is encoded
in `isinstanceInt` below. -/
inductive PyVal where
  | none
  | bool (b : Bool)
  | int (n : Int)
  | float (bits : Nat)
  | str (s : String)
  | tuple (elems : List PyVal)

/-- Python `isinstance(v, int)`: true for `int` and for `bool`, which is
an `int` subtype. -/
def isinstanceInt : PyVal → Bool
  | .int _ => true
  | .bool _ => true
  | _ => false

/-- Python `isinstance(v, bool)`. -/
def isinstanceBool : PyVal → Bool
  | .bool _ => true
  | _ => false

/-- Python `isinstance(v, float)`. -/
def isinstanceFloat : PyVal → Bool
  | .float _ => true
  | _ => false

/-- Python `isinstance(v, str)`. -/
def isinstanceStr : PyVal → Bool
  | .str _ => true
  | _ => false

/-- Python `isinstance(v, type(None))`. -/
def isinstanceNone : PyVal → Bool
  | .none => true
  | _ => false

/-- Python `isinstance(v, tuple)`. -/
def isinstanceTuple : PyVal → Bool
  | .tuple _ => true
  | _ => false

/-- Python `len(v)` for a tuple (0 otherwise; only consulted on tuples). -/
def tupleLen : PyVal → Nat
  | .tuple l => l.length
  | _ => 0

/-- Python `v[i]` for a tuple (only consulted in range on tuples). -/
def tupleGet : PyVal → Nat → PyVal
  | .tuple l, i => l.getD i PyVal.none
  | _, _ => PyVal.none

/-- `Datum._validate_value` of `datum.py`, transliterated branch by
branch: returns the `ValueError` message the Python code raises, or
`Option.none` when the value passes. -/
def validateValue (format : Int) (value : PyVal) : Option String :=
  if format = 0 then
    if !(isinstanceInt value || isinstanceNone value) || isinstanceBool value then
      some "INTEGER format requires int value"
    else Option.none
  else if format = 1 ∨ format = 5 then
    if !(isinstanceInt value || isinstanceFloat value) || isinstanceBool value then
      some "FLOAT/EXPONENT format requires numeric value"
    else Option.none
  else if format = 2 then
    if !isinstanceStr value then some "TEXT format requires str value"
    else Option.none
  else if format = 3 then
    if !isinstanceTuple value || !(tupleLen value == 2) then
      some "INTEGER_WITH_TEXT format requires tuple of (int, str)"
    else if !isinstanceInt (tupleGet value 0) || isinstanceBool (tupleGet value 0) then
      some "INTEGER_WITH_TEXT format requires int as first element"
    else if !isinstanceStr (tupleGet value 1) then
      some "INTEGER_WITH_TEXT format requires str as second element"
    else Option.none
  else if format = 4 then
    if !isinstanceTuple value || !(tupleLen value == 2) then
      some "FLOAT_WITH_TEXT format requires tuple of (float, str)"
    else if !(isinstanceInt (tupleGet value 0) || isinstanceFloat (tupleGet value 0)) ||
        isinstanceBool (tupleGet value 0) then
      some "FLOAT_WITH_TEXT format requires numeric as first element"
    else if !isinstanceStr (tupleGet value 1) then
      some "FLOAT_WITH_TEXT format requires str as second element"
    else Option.none
  else Option.none

/-- The four fields a successfully constructed `Datum` stores. -/
structure PyDatum where
  id : Option Int
  format : Int
  timestamp : Int
  value : PyVal

/-- The `format` is one of the six `DatumFormat` tags (0–5), the check
`format not in DatumFormat.__members__.values()` of `Datum.__init__`. -/
def formatKnown (format : Int) : Bool :=
  decide (0 ≤ format) && decide (format ≤ 5)

/-- `Datum.__init__` of `datum.py`: rejects an unknown format with the
`Invalid format` ValueError, stores the four fields, then runs
`_validate_value`, whose error (if any) aborts construction. -/
def datumInit (id : Option Int) (format : Int) (timestamp : Int) (value : PyVal) :
    Except String PyDatum :=
  if formatKnown format = false then .error "Invalid format"
  else
    match validateValue format value with
    | some e => .error e
    | Option.none => .ok ⟨id, format, timestamp, value⟩

/-- The value shapes `datum.py` actually accepts, stated positively:
`int` (bool excluded) or `None` for INTEGER; `int` or `float` (bool
excluded) for FLOAT and EXPONENT; `str` for TEXT; a pair of an `int`
(bool excluded) and a `str` for INTEGER_WITH_TEXT; a pair of an `int` or
`float` (bool excluded) and a `str` for FLOAT_WITH_TEXT. -/
def shapeOk (format : Int) (value : PyVal) : Bool :=
  if format = 0 then
    match value with
    | .int _ => true
    | .none => true
    | _ => false
  else if format = 1 ∨ format = 5 then
    match value with
    | .int _ => true
    | .float _ => true
    | _ => false
  else if format = 2 then
    match value with
    | .str _ => true
    | _ => false
  else if format = 3 then
    match value with
    | .tuple [PyVal.int _, PyVal.str _] => true
    | _ => false
  else if format = 4 then
    match value with
    | .tuple [PyVal.int _, PyVal.str _] => true
    | .tuple [PyVal.float _, PyVal.str _] => true
    | _ => false
  else true

/-- The value shapes as the claim's own words enumerate them: "int for
INTEGER, numeric for FLOAT/EXPONENT, str for TEXT, (int, str) tuple for
INTEGER_WITH_TEXT, (numeric, str) tuple for FLOAT_WITH_TEXT" — written
from those words for comparison with the code's rule `shapeOk`. -/
def specValueShape (format : Int) (value : PyVal) : Bool :=
  if format = 0 then
    match value with
    | .int _ => true
    | _ => false
  else if format = 1 ∨ format = 5 then
    match value with
    | .int _ => true
    | .float _ => true
    | _ => false
  else if format = 2 then
    match value with
    | .str _ => true
    | _ => false
  else if format = 3 then
    match value with
    | .tuple [PyVal.int _, PyVal.str _] => true
    | _ => false
  else if format = 4 then
    match value with
    | .tuple [PyVal.int _, PyVal.str _] => true
    | .tuple [PyVal.float _, PyVal.str _] => true
    | _ => false
  else true

/-- The value is `None` or a (non-bool) `int` — the exact acceptance rule
of the INTEGER format. -/
def isNoneOrInt : PyVal → Bool
  | .none => true
  | .int _ => true
  | _ => false

namespace Radio

theorem bytesToNatBE_natToBytes4 (u : Nat) (h : u < 4294967296) :
    bytesToNatBE (natToBytes4 u) = u := by
  unfold bytesToNatBE natToBytes4
  simp only [List.foldl_cons, List.foldl_nil]
  omega

theorem bytesToNatBE_natToBytes8 (u : Nat) (h : u < 18446744073709551616) :
    bytesToNatBE (natToBytes8 u) = u := by
  unfold bytesToNatBE natToBytes8
  simp only [List.foldl_cons, List.foldl_nil]
  omega

theorem bytesToInt32_int32ToBytes (v : Int) (h1 : -2147483648 ≤ v)
    (h2 : v < 2147483648) : bytesToInt32 (int32ToBytes v) = v := by
  unfold bytesToInt32 int32ToBytes
  rw [bytesToNatBE_natToBytes4 _ (by omega)]
  show (if (v % 4294967296).toNat < 2147483648
      then (((v % 4294967296).toNat : Int))
      else ((v % 4294967296).toNat : Int) - 4294967296) = v
  split <;> omega

theorem length_int32ToBytes (v : Int) : (int32ToBytes v).length = 4 := rfl

theorem length_natToBytes8 (u : Nat) : (natToBytes8 u).length = 8 := rfl

theorem orFlag : ∀ n < 128, ((n ||| 128) &&& 128 = 128) ∧
    ((n ||| 128) &&& 127 = n) := by decide

theorem list_length_four {l : List Nat} (h : l.length = 4) :
    ∃ a b c d, l = [a, b, c, d] := by
  rcases l with _ | ⟨a, _ | ⟨b, _ | ⟨c, _ | ⟨d, _ | ⟨e, t⟩⟩⟩⟩⟩
  · simp at h
  · simp at h
  · simp at h
  · simp at h
  · exact ⟨a, b, c, d, rfl⟩
  · simp at h

theorem packPayload_length {fmt : Nat} {v : Value} {p : List Nat}
    (h : packPayload fmt v = .ok p) : p.length ≤ 117 := by
  unfold packPayload at h
  repeat' split at h
  all_goals first
    | exact Except.noConfusion h
    | (injection h with h; subst h;
       simp [length_int32ToBytes, length_natToBytes8, List.length_append,
         List.length_take, textBudget, intTextBudget, floatTextBudget,
         _MAXIMUM_PACKET_SIZE, _HEADER_SIZE, _INTEGER_SIZE, _FLOAT_SIZE];
       try omega)

theorem unpack_frame {idB tsB p : List Nat} {fmt : Nat} {v : Value}
    (h1 : idB.length = 4) (h2 : tsB.length = 4) (hfmt : fmt ≤ 5)
    (hp : p.length ≤ 117) (hpv : unpackPayload fmt p = .ok v) :
    unpack ((((_HEADER_SIZE + p.length) ||| 128)) :: idB ++ fmt :: tsB ++ p)
      = .ok ⟨bytesToInt32 idB, fmt, bytesToInt32 tsB, v⟩ := by
  obtain ⟨a1, a2, a3, a4, rfl⟩ := list_length_four h1
  obtain ⟨b1, b2, b3, b4, rfl⟩ := list_length_four h2
  have hor := orFlag (_HEADER_SIZE + p.length)
    (by simp [_HEADER_SIZE]; omega)
  unfold unpack
  simp only [List.cons_append, List.nil_append]
  rw [if_neg (by rw [hor.1]; omega)]
  rw [if_neg (by
    rw [hor.2]
    simp [_HEADER_SIZE, List.length_append]
    omega)]
  rw [if_neg (by omega), hpv]

theorem pack_ok {di ts : Int} {fmt : Nat} {v : Value} {p : List Nat}
    (h : packPayload fmt v = .ok p) :
    pack ⟨di, fmt, ts, v⟩ = .ok (((_HEADER_SIZE + p.length) ||| 128) ::
      int32ToBytes di ++ fmt :: int32ToBytes ts ++ p) := by
  unfold pack
  simp only [h]

theorem take_int32 (n : Int) : (int32ToBytes n).take 4 = int32ToBytes n :=
  List.take_of_length_le (by rw [length_int32ToBytes])

theorem take_nat8 (b : Nat) : (natToBytes8 b).take 8 = natToBytes8 b :=
  List.take_of_length_le (by rw [length_natToBytes8])

/-- C1: for every valid Record whose encoded text payload fits within the
127-byte frame cap, `Radio.unpack` after `Radio.pack` reproduces the
original id, format, timestamp (in whole seconds) and value exactly —
float values, ±infinity included, round-trip bit-for-bit; and a NaN
pattern is never self-equal under IEEE-754 comparison, so a decoded NaN
value is not self-equal. -/
theorem pack_unpack_round_trip :
    (∀ d : Datum, validDatum d = true → textFits d = true →
      Except.bind (pack d) unpack = Except.ok d) ∧
    (∀ b : Nat, float64IsNaN b = true → float64Eq b b = false) := by
  constructor
  · intro d hv hf
    obtain ⟨di, fmt, ts, v⟩ := d
    simp only [validDatum, Bool.and_eq_true, decide_eq_true_eq] at hv
    obtain ⟨⟨⟨⟨hid1, hid2⟩, hts1⟩, hts2⟩, hvv⟩ := hv
    cases v with
    | int n =>
      simp only [validValue, Bool.and_eq_true, beq_iff_eq, decide_eq_true_eq] at hvv
      obtain ⟨⟨hfmt, hn1⟩, hn2⟩ := hvv
      subst hfmt
      have hpp : packPayload 0 (Value.int n) = .ok (int32ToBytes n) := by
        unfold packPayload
        rw [if_pos rfl]
      have hup : unpackPayload 0 (int32ToBytes n) = .ok (Value.int n) := by
        unfold unpackPayload
        rw [if_pos rfl, if_neg (by rw [length_int32ToBytes]; omega), take_int32,
          bytesToInt32_int32ToBytes n hn1 hn2]
      rw [pack_ok hpp]
      simp only [Except.bind]
      rw [unpack_frame (length_int32ToBytes di) (length_int32ToBytes ts)
          (by omega) (by rw [length_int32ToBytes]; omega) hup,
        bytesToInt32_int32ToBytes di hid1 hid2,
        bytesToInt32_int32ToBytes ts hts1 hts2]
    | float b =>
      simp only [validValue, Bool.and_eq_true, Bool.or_eq_true, beq_iff_eq,
        decide_eq_true_eq] at hvv
      obtain ⟨hfmt, hb⟩ := hvv
      have hn0 : ¬ (fmt = 0) := by rcases hfmt with rfl | rfl <;> simp
      have hle : fmt ≤ 5 := by rcases hfmt with rfl | rfl <;> omega
      have hpp : packPayload fmt (Value.float b) = .ok (natToBytes8 b) := by
        unfold packPayload
        rw [if_neg hn0, if_pos hfmt]
      have hup : unpackPayload fmt (natToBytes8 b) = .ok (Value.float b) := by
        unfold unpackPayload
        rw [if_neg hn0, if_pos hfmt, if_neg (by rw [length_natToBytes8]; omega),
          take_nat8, bytesToNatBE_natToBytes8 b hb]
      rw [pack_ok hpp]
      simp only [Except.bind]
      rw [unpack_frame (length_int32ToBytes di) (length_int32ToBytes ts)
          hle (by rw [length_natToBytes8]; omega) hup,
        bytesToInt32_int32ToBytes di hid1 hid2,
        bytesToInt32_int32ToBytes ts hts1 hts2]
    | text s =>
      simp only [validValue, Bool.and_eq_true, beq_iff_eq] at hvv
      obtain ⟨hfmt, -⟩ := hvv
      subst hfmt
      simp only [textFits, decide_eq_true_eq] at hf
      have htk : s.take textBudget = s := List.take_of_length_le hf
      have hpp : packPayload 2 (Value.text s) = .ok s := by
        unfold packPayload
        rw [if_neg (by omega), if_neg (by simp), if_pos rfl]
        simp only [htk]
      have hup : unpackPayload 2 s = .ok (Value.text s) := by
        unfold unpackPayload
        rw [if_neg (by omega), if_neg (by simp), if_pos rfl]
      rw [pack_ok hpp]
      simp only [Except.bind]
      rw [unpack_frame (length_int32ToBytes di) (length_int32ToBytes ts)
          (by omega)
          (by simp [textBudget, _MAXIMUM_PACKET_SIZE, _HEADER_SIZE] at hf; omega) hup,
        bytesToInt32_int32ToBytes di hid1 hid2,
        bytesToInt32_int32ToBytes ts hts1 hts2]
    | intText n s =>
      simp only [validValue, Bool.and_eq_true, beq_iff_eq, decide_eq_true_eq] at hvv
      obtain ⟨⟨⟨hfmt, hn1⟩, hn2⟩, -⟩ := hvv
      subst hfmt
      simp only [textFits, decide_eq_true_eq] at hf
      have htk : s.take intTextBudget = s := List.take_of_length_le hf
      have hpp : packPayload 3 (Value.intText n s) = .ok (int32ToBytes n ++ s) := by
        unfold packPayload
        rw [if_neg (by omega), if_neg (by simp), if_neg (by omega), if_pos rfl]
        simp only [htk]
      have hup : unpackPayload 3 (int32ToBytes n ++ s) = .ok (Value.intText n s) := by
        unfold unpackPayload
        rw [if_neg (by omega), if_neg (by simp), if_neg (by omega), if_pos rfl,
          if_neg (by simp [List.length_append, length_int32ToBytes]),
          List.take_left' (length_int32ToBytes n),
          List.drop_left' (length_int32ToBytes n),
          bytesToInt32_int32ToBytes n hn1 hn2]
      rw [pack_ok hpp]
      simp only [Except.bind]
      rw [unpack_frame (length_int32ToBytes di) (length_int32ToBytes ts)
          (by omega)
          (by
            simp only [List.length_append, length_int32ToBytes]
            simp [intTextBudget, _MAXIMUM_PACKET_SIZE, _HEADER_SIZE, _INTEGER_SIZE] at hf
            omega)
          hup,
        bytesToInt32_int32ToBytes di hid1 hid2,
        bytesToInt32_int32ToBytes ts hts1 hts2]
    | floatText b s =>
      simp only [validValue, Bool.and_eq_true, beq_iff_eq, decide_eq_true_eq] at hvv
      obtain ⟨⟨hfmt, hb⟩, -⟩ := hvv
      subst hfmt
      simp only [textFits, decide_eq_true_eq] at hf
      have htk : s.take floatTextBudget = s := List.take_of_length_le hf
      have hpp : packPayload 4 (Value.floatText b s) = .ok (natToBytes8 b ++ s) := by
        unfold packPayload
        rw [if_neg (by omega), if_neg (by simp), if_neg (by omega),
          if_neg (by omega), if_pos rfl]
        simp only [htk]
      have hup : unpackPayload 4 (natToBytes8 b ++ s) = .ok (Value.floatText b s) := by
        unfold unpackPayload
        rw [if_neg (by omega), if_neg (by simp), if_neg (by omega), if_neg (by omega),
          if_pos rfl,
          if_neg (by simp [List.length_append, length_natToBytes8]),
          List.take_left' (length_natToBytes8 b),
          List.drop_left' (length_natToBytes8 b),
          bytesToNatBE_natToBytes8 b hb]
      rw [pack_ok hpp]
      simp only [Except.bind]
      rw [unpack_frame (length_int32ToBytes di) (length_int32ToBytes ts)
          (by omega)
          (by
            simp only [List.length_append, length_natToBytes8]
            simp [floatTextBudget, _MAXIMUM_PACKET_SIZE, _HEADER_SIZE, _FLOAT_SIZE] at hf
            omega)
          hup,
        bytesToInt32_int32ToBytes di hid1 hid2,
        bytesToInt32_int32ToBytes ts hts1 hts2]
  · intro b hnan
    simp only [float64Eq, hnan, Bool.not_true, Bool.false_and]

theorem pack_unpack_round_trip_witness :
    Except.bind (pack ⟨7, 1, 1000, Value.float float64PosInf⟩) unpack
      = Except.ok ⟨7, 1, 1000, Value.float float64PosInf⟩ ∧
    float64Eq float64NaN float64NaN = false :=
  ⟨pack_unpack_round_trip.1 ⟨7, 1, 1000, Value.float float64PosInf⟩
      (by decide) (by decide),
   pack_unpack_round_trip.2 float64NaN (by decide)⟩

/-- C2: for every valid Record whose text would overflow the 127-byte
cap, `Radio.pack` truncates only the trailing text to the exact byte
budget of its format (TEXT: 117, INTEGER_WITH_TEXT: 113,
FLOAT_WITH_TEXT: 109 bytes), leaves the numeric prefix unchanged, emits a
frame of exactly 127 bytes without an error, and `Radio.unpack` of that
frame yields the truncated text (`truncDatum`). -/
theorem pack_truncates_overflowing_text :
    ∀ d : Datum, validDatum d = true → textOverflows d = true →
      Except.map List.length (pack d) = Except.ok 127 ∧
      Except.bind (pack d) unpack = Except.ok (truncDatum d) := by
  intro d hv hov
  obtain ⟨di, fmt, ts, v⟩ := d
  simp only [validDatum, Bool.and_eq_true, decide_eq_true_eq] at hv
  obtain ⟨⟨⟨⟨hid1, hid2⟩, hts1⟩, hts2⟩, hvv⟩ := hv
  cases v with
  | int n => simp [textOverflows] at hov
  | float b => simp [textOverflows] at hov
  | text s =>
    simp only [validValue, Bool.and_eq_true, beq_iff_eq] at hvv
    obtain ⟨hfmt, -⟩ := hvv
    subst hfmt
    simp only [textOverflows, decide_eq_true_eq] at hov
    simp only [textBudget, _MAXIMUM_PACKET_SIZE, _HEADER_SIZE] at hov
    have hlen : (s.take textBudget).length = 117 := by
      simp [List.length_take, textBudget, _MAXIMUM_PACKET_SIZE, _HEADER_SIZE]
      omega
    have hpp : packPayload 2 (Value.text s) = .ok (s.take textBudget) := by
      unfold packPayload
      rw [if_neg (by omega), if_neg (by simp), if_pos rfl]
    have hup : unpackPayload 2 (s.take textBudget)
        = .ok (Value.text (s.take textBudget)) := by
      unfold unpackPayload
      rw [if_neg (by omega), if_neg (by simp), if_pos rfl]
    constructor
    · rw [pack_ok hpp]
      simp [Except.map, List.length_append, length_int32ToBytes, hlen, _HEADER_SIZE]
    · rw [pack_ok hpp]
      simp only [Except.bind]
      rw [unpack_frame (length_int32ToBytes di) (length_int32ToBytes ts)
          (by omega) (by rw [hlen]) hup,
        bytesToInt32_int32ToBytes di hid1 hid2,
        bytesToInt32_int32ToBytes ts hts1 hts2]
      simp [truncDatum, truncValue]
  | intText n s =>
    simp only [validValue, Bool.and_eq_true, beq_iff_eq, decide_eq_true_eq] at hvv
    obtain ⟨⟨⟨hfmt, hn1⟩, hn2⟩, -⟩ := hvv
    subst hfmt
    simp only [textOverflows, decide_eq_true_eq] at hov
    simp only [intTextBudget, _MAXIMUM_PACKET_SIZE, _HEADER_SIZE, _INTEGER_SIZE] at hov
    have hlen : (s.take intTextBudget).length = 113 := by
      simp [List.length_take, intTextBudget, _MAXIMUM_PACKET_SIZE, _HEADER_SIZE,
        _INTEGER_SIZE]
      omega
    have hpp : packPayload 3 (Value.intText n s)
        = .ok (int32ToBytes n ++ s.take intTextBudget) := by
      unfold packPayload
      rw [if_neg (by omega), if_neg (by simp), if_neg (by omega), if_pos rfl]
    have hup : unpackPayload 3 (int32ToBytes n ++ s.take intTextBudget)
        = .ok (Value.intText n (s.take intTextBudget)) := by
      unfold unpackPayload
      rw [if_neg (by omega), if_neg (by simp), if_neg (by omega), if_pos rfl,
        if_neg (by simp [List.length_append, length_int32ToBytes]),
        List.take_left' (length_int32ToBytes n),
        List.drop_left' (length_int32ToBytes n),
        bytesToInt32_int32ToBytes n hn1 hn2]
    constructor
    · rw [pack_ok hpp]
      simp [Except.map, List.length_append, length_int32ToBytes, hlen, _HEADER_SIZE]
    · rw [pack_ok hpp]
      simp only [Except.bind]
      rw [unpack_frame (length_int32ToBytes di) (length_int32ToBytes ts)
          (by omega)
          (by simp [List.length_append, length_int32ToBytes, hlen])
          hup,
        bytesToInt32_int32ToBytes di hid1 hid2,
        bytesToInt32_int32ToBytes ts hts1 hts2]
      simp [truncDatum, truncValue]
  | floatText b s =>
    simp only [validValue, Bool.and_eq_true, beq_iff_eq, decide_eq_true_eq] at hvv
    obtain ⟨⟨hfmt, hb⟩, -⟩ := hvv
    subst hfmt
    simp only [textOverflows, decide_eq_true_eq] at hov
    simp only [floatTextBudget, _MAXIMUM_PACKET_SIZE, _HEADER_SIZE, _FLOAT_SIZE] at hov
    have hlen : (s.take floatTextBudget).length = 109 := by
      simp [List.length_take, floatTextBudget, _MAXIMUM_PACKET_SIZE, _HEADER_SIZE,
        _FLOAT_SIZE]
      omega
    have hpp : packPayload 4 (Value.floatText b s)
        = .ok (natToBytes8 b ++ s.take floatTextBudget) := by
      unfold packPayload
      rw [if_neg (by omega), if_neg (by simp), if_neg (by omega), if_neg (by omega),
        if_pos rfl]
    have hup : unpackPayload 4 (natToBytes8 b ++ s.take floatTextBudget)
        = .ok (Value.floatText b (s.take floatTextBudget)) := by
      unfold unpackPayload
      rw [if_neg (by omega), if_neg (by simp), if_neg (by omega), if_neg (by omega),
        if_pos rfl,
        if_neg (by simp [List.length_append, length_natToBytes8]),
        List.take_left' (length_natToBytes8 b),
        List.drop_left' (length_natToBytes8 b),
        bytesToNatBE_natToBytes8 b hb]
    constructor
    · rw [pack_ok hpp]
      simp [Except.map, List.length_append, length_natToBytes8, length_int32ToBytes,
        hlen, _HEADER_SIZE]
    · rw [pack_ok hpp]
      simp only [Except.bind]
      rw [unpack_frame (length_int32ToBytes di) (length_int32ToBytes ts)
          (by omega)
          (by simp [List.length_append, length_natToBytes8, hlen])
          hup,
        bytesToInt32_int32ToBytes di hid1 hid2,
        bytesToInt32_int32ToBytes ts hts1 hts2]
      simp [truncDatum, truncValue]

set_option maxRecDepth 8000 in
theorem pack_truncates_overflowing_text_witness :
    Except.map List.length (pack ⟨1, 2, 0, Value.text (List.replicate 130 65)⟩)
      = Except.ok 127 ∧
    Except.bind (pack ⟨1, 2, 0, Value.text (List.replicate 130 65)⟩) unpack
      = Except.ok (truncDatum ⟨1, 2, 0, Value.text (List.replicate 130 65)⟩) :=
  pack_truncates_overflowing_text ⟨1, 2, 0, Value.text (List.replicate 130 65)⟩
    (by decide) (by decide)

/-- C5: the first byte of every frame `Radio.pack` produces has bit 0x80
set and its low 7 bits equal the emitted frame length; and `Radio.unpack`
fails with the `Invalid packet header` error on any input whose byte 0
lacks bit 0x80. -/
theorem header_flag_and_length :
    (∀ (d : Datum) (bytes : List Nat), pack d = .ok bytes →
      bytes.headD 0 &&& 128 = 128 ∧ bytes.headD 0 &&& 127 = bytes.length) ∧
    (∀ packet : List Nat, packet ≠ [] → packet.headD 0 &&& 128 = 0 →
      unpack packet = .error "Invalid packet header") := by
  constructor
  · intro d bytes hok
    unfold pack at hok
    cases hpp : packPayload d.format d.value with
    | error e => rw [hpp] at hok; exact Except.noConfusion hok
    | ok p =>
      rw [hpp] at hok
      injection hok with hok
      subst hok
      have hple := packPayload_length hpp
      have hor := orFlag (_HEADER_SIZE + p.length) (by simp [_HEADER_SIZE]; omega)
      simp only [List.cons_append, List.headD_cons]
      refine ⟨hor.1, ?_⟩
      rw [hor.2]
      simp [List.length_cons, List.length_append, length_int32ToBytes, _HEADER_SIZE]
      omega
  · intro packet hne hflag
    cases packet with
    | nil => exact absurd rfl hne
    | cons b0 rest =>
      simp only [List.headD_cons] at hflag
      simp only [unpack]
      rw [if_pos hflag]

theorem header_flag_and_length_witness :
    (([142, 0, 0, 0, 0, 0, 0, 0, 0, 0, 0, 0, 0, 0] : List Nat).headD 0 &&& 128 = 128 ∧
     ([142, 0, 0, 0, 0, 0, 0, 0, 0, 0, 0, 0, 0, 0] : List Nat).headD 0 &&& 127
       = ([142, 0, 0, 0, 0, 0, 0, 0, 0, 0, 0, 0, 0, 0] : List Nat).length) ∧
    unpack [5] = .error "Invalid packet header" :=
  ⟨header_flag_and_length.1 ⟨0, 0, 0, Value.int 0⟩
      [142, 0, 0, 0, 0, 0, 0, 0, 0, 0, 0, 0, 0, 0] (by rfl),
   header_flag_and_length.2 [5] (by simp) (by rfl)⟩

/-- C6 counterexample: the byte sequence `[5]` has declared length
`5 &&& 0x7F = 5` different from its actual length 1, yet `Radio.unpack`
does not fail with the `Invalid packet size` error — the missing 0x80
flag is reported first, so the claim as stated (quantified over every
byte sequence) is false. -/
theorem unpack_size_mismatch_counterexample :
    (5 : Nat) &&& 127 ≠ ([5] : List Nat).length ∧
    unpack [5] ≠ Except.error "Invalid packet size" := by
  constructor
  · decide
  · intro hcon
    rw [show unpack [5] = Except.error "Invalid packet header" from rfl] at hcon
    injection hcon with hs
    exact absurd hs (by decide)

/-- C6 (amended): for every nonempty byte sequence whose byte 0 has bit
0x80 set and whose declared length (byte 0 &&& 0x7F) does not equal the
actual number of bytes supplied, `Radio.unpack` fails with the
`Invalid packet size` error. -/
theorem unpack_size_mismatch :
    ∀ packet : List Nat, packet ≠ [] → packet.headD 0 &&& 128 ≠ 0 →
      packet.headD 0 &&& 127 ≠ packet.length →
      unpack packet = .error "Invalid packet size" := by
  intro packet hne hflag hlen
  cases packet with
  | nil => exact absurd rfl hne
  | cons b0 rest =>
    simp only [List.headD_cons] at hflag hlen
    simp only [List.length_cons] at hlen
    simp only [unpack]
    rw [if_neg hflag, if_pos hlen]

theorem unpack_size_mismatch_witness :
    unpack [133, 0] = .error "Invalid packet size" :=
  unpack_size_mismatch [133, 0] (by simp) (by decide) (by decide)

/-- C7: `Radio.pack` fails with the `Invalid data type` error for every
Record whose format tag lies outside 0–5, and `Radio.unpack` fails with
the same error for every frame (0x80 flag set, declared length equal to
the actual length, full 10-byte header present) whose format byte at
offset 5 lies outside 0–5. -/
theorem invalid_format_rejected :
    (∀ d : Datum, 5 < d.format → pack d = .error "Invalid data type") ∧
    (∀ packet : List Nat, 10 ≤ packet.length →
      packet.headD 0 &&& 128 ≠ 0 → packet.headD 0 &&& 127 = packet.length →
      5 < packet.getD 5 0 →
      unpack packet = .error "Invalid data type") := by
  constructor
  · intro d hfmt
    obtain ⟨di, fmt, ts, v⟩ := d
    simp only at hfmt
    have hpp : packPayload fmt v = .error "Invalid data type" := by
      unfold packPayload
      rw [if_neg (by omega), if_neg (by omega), if_neg (by omega),
        if_neg (by omega), if_neg (by omega)]
    unfold pack
    simp only [hpp]
  · intro packet hlen hflag hsz hfmt
    obtain ⟨b0, a1, a2, a3, a4, f5, t1, t2, t3, t4, body, rfl⟩ :
        ∃ b0 a1 a2 a3 a4 f5 t1 t2 t3 t4 body,
          packet = b0 :: a1 :: a2 :: a3 :: a4 :: f5 :: t1 :: t2 :: t3 :: t4 :: body := by
      rcases packet with _ | ⟨b0, _ | ⟨a1, _ | ⟨a2, _ | ⟨a3, _ | ⟨a4, _ | ⟨f5,
        _ | ⟨t1, _ | ⟨t2, _ | ⟨t3, _ | ⟨t4, body⟩⟩⟩⟩⟩⟩⟩⟩⟩⟩ <;>
        first
          | exact ⟨_, _, _, _, _, _, _, _, _, _, _, rfl⟩
          | (simp only [List.length_cons, List.length_nil] at hlen; omega)
    have hf5 : (b0 :: a1 :: a2 :: a3 :: a4 :: f5 :: t1 :: t2 :: t3 :: t4 ::
        body).getD 5 0 = f5 := rfl
    rw [hf5] at hfmt
    simp only [List.headD_cons] at hflag hsz
    have hsz' : b0 &&& 127 = (a1 :: a2 :: a3 :: a4 :: f5 :: t1 :: t2 :: t3 :: t4 ::
        body).length + 1 := by
      simp only [List.length_cons] at hsz ⊢
      omega
    simp only [unpack]
    rw [if_neg hflag, if_neg (not_not_intro hsz'), if_pos hfmt]

theorem invalid_format_rejected_witness :
    pack ⟨0, 6, 0, Value.int 0⟩ = .error "Invalid data type" ∧
    unpack [138, 0, 0, 0, 0, 6, 0, 0, 0, 0] = .error "Invalid data type" :=
  ⟨invalid_format_rejected.1 ⟨0, 6, 0, Value.int 0⟩ (by decide),
   invalid_format_rejected.2 [138, 0, 0, 0, 0, 6, 0, 0, 0, 0]
     (by decide) (by decide) (by decide) (by decide)⟩

theorem recvn_zero (stream : List (List Nat)) : recvn stream 0 = .ok [] := by
  cases stream <;> rfl

/-- C8: `Radio._recvn` returns exactly the concatenation of the first `n`
bytes of the stream even when individual reads deliver fewer than the
remaining bytes per call, and fails with the `Connection closed by peer`
error if a read returns zero bytes before `n` bytes are accumulated. -/
theorem recvn_reads_exactly :
    (∀ (stream : List (List Nat)) (n : Nat),
      (∀ c ∈ stream, c ≠ []) → n ≤ stream.flatten.length →
      recvn stream n = .ok (stream.flatten.take n)) ∧
    (∀ (pre post : List (List Nat)) (n : Nat),
      (∀ c ∈ pre, c ≠ []) → pre.flatten.length < n →
      recvn (pre ++ [] :: post) n = .error "Connection closed by peer") := by
  constructor
  · intro stream
    induction stream with
    | nil =>
      intro n _ hn
      simp only [List.flatten_nil, List.length_nil, Nat.le_zero] at hn
      subst hn
      rfl
    | cons c cs ih =>
      intro n hne hn
      match n with
      | 0 => rw [recvn_zero, List.take_zero]
      | m + 1 =>
        have hc : c ≠ [] := hne c (by simp)
        have hclen : ¬ (c.length = 0) := by simpa using hc
        simp only [List.flatten_cons, List.length_append] at hn
        simp only [recvn]
        rw [if_neg hclen]
        by_cases hle : c.length ≤ m + 1
        · rw [List.take_of_length_le hle]
          rw [ih (m + 1 - c.length) (fun x hx => hne x (by simp [hx])) (by omega)]
          simp only [List.flatten_cons, List.take_append_eq_append_take,
            List.take_of_length_le hle]
        · have h0 : m + 1 - (c.take (m + 1)).length = 0 := by
            simp [List.length_take]
            omega
          rw [h0, recvn_zero]
          simp only [List.flatten_cons, List.take_append_eq_append_take]
          have h1 : m + 1 - c.length = 0 := by omega
          rw [h1, List.take_zero]
  · intro pre
    induction pre with
    | nil =>
      intro post n _ hn
      simp only [List.flatten_nil, List.length_nil] at hn
      match n, hn with
      | m + 1, _ =>
        simp only [List.nil_append, recvn]
        simp
    | cons c cs ih =>
      intro post n hne hlen
      have hc : c ≠ [] := hne c (by simp)
      have hclen : ¬ (c.length = 0) := by simpa using hc
      simp only [List.flatten_cons, List.length_append] at hlen
      match n, hlen with
      | m + 1, hlen =>
        simp only [List.cons_append, recvn]
        rw [if_neg hclen]
        have hle : c.length ≤ m + 1 := by omega
        rw [List.take_of_length_le hle]
        simp only [List.append_eq]
        rw [ih post (m + 1 - c.length) (fun x hx => hne x (by simp [hx])) (by omega)]

theorem recvn_reads_exactly_witness :
    recvn [[1, 2, 3, 4, 5], [6, 7, 8, 9], [10, 11]] 11
      = .ok (([[1, 2, 3, 4, 5], [6, 7, 8, 9], [10, 11]] :
          List (List Nat)).flatten.take 11) ∧
    recvn ([[1]] ++ [] :: []) 3 = .error "Connection closed by peer" :=
  ⟨recvn_reads_exactly.1 [[1, 2, 3, 4, 5], [6, 7, 8, 9], [10, 11]] 11
      (by simp) (by simp),
   recvn_reads_exactly.2 [[1]] [] 3 (by simp) (by simp)⟩

theorem receiveLoop_ok : ∀ (ids : List Int) (frames : List (List Nat))
    (evs : List NetEv) (res : List Datum),
    receiveLoop ids frames = (evs, .ok res) →
    evs = (ids.map fun i => NetEv.send (int32ToBytes i)) ++
      [NetEv.send (int32ToBytes (-1))] ∧
    res.length = ids.length ∧
    (frames.take ids.length).mapM unpack = .ok res := by
  intro ids
  induction ids with
  | nil =>
    intro frames evs res h
    simp only [receiveLoop, Prod.mk.injEq] at h
    obtain ⟨hevs, hres⟩ := h
    injection hres with hres
    subst hevs
    subst hres
    refine ⟨by simp, by simp, ?_⟩
    rfl
  | cons i rest ih =>
    intro frames evs res h
    cases frames with
    | nil => simp [receiveLoop] at h
    | cons f fs =>
      cases hu : unpack f with
      | error e => simp [receiveLoop, hu] at h
      | ok d =>
        cases hrl : receiveLoop rest fs with
        | mk evs' r' =>
          simp only [receiveLoop, hu, hrl, Prod.mk.injEq] at h
          obtain ⟨hevs, hres⟩ := h
          cases r' with
          | error e => simp [Except.map] at hres
          | ok res' =>
            simp only [Except.map] at hres
            injection hres with hres
            obtain ⟨ih1, ih2, ih3⟩ := ih fs evs' res' hrl
            subst hevs
            subst hres
            refine ⟨by simp [ih1], by simp [ih2], ?_⟩
            simp only [List.length_cons, List.take_succ_cons, List.mapM_cons, hu, ih3]
            rfl

theorem receiveBody_ok (w : Wire) (ids : List Int) (res : List Datum)
    (h : (receiveBody w ids).2 = .ok res) :
    (receiveBody w ids).1 = NetEv.connect :: NetEv.send [82, 10] ::
      ((ids.map fun i => NetEv.send (int32ToBytes i)) ++
        [NetEv.send (int32ToBytes (-1))]) ∧
    res.length = ids.length ∧
    (w.frames.take ids.length).mapM unpack = .ok res := by
  unfold receiveBody at h ⊢
  by_cases hconn : w.connectOk = false
  · rw [if_pos hconn] at h
    simp at h
  · rw [if_neg hconn] at h ⊢
    by_cases hline : lineOk (w.lines.headD []) = false
    · rw [if_pos hline] at h
      simp at h
    · rw [if_neg hline] at h ⊢
      cases hrl : receiveLoop ids w.frames with
      | mk evs r =>
        rw [hrl] at h
        have hr : r = Except.ok res := h
        subst hr
        obtain ⟨h1, h2, h3⟩ := receiveLoop_ok ids w.frames evs res hrl
        refine ⟨?_, h2, h3⟩
        show NetEv.connect :: NetEv.send [82, 10] :: evs = _
        rw [h1]

/-- C3: whenever a receive session (`Radio.receive`) completes with a
result, its socket trace is exactly: connect, the `R` handshake line,
one 4-byte signed big-endian request per identifier in the caller's
order, and one 4-byte sentinel of value −1 before the close; exactly one
frame per identifier is read and decoded, the results appended in request
order. -/
theorem receive_request_trace :
    ∀ (w : Wire) (ids : List Int) (res : List Datum),
      (receive w ids).2 = .ok res →
      (receive w ids).1 = NetEv.connect :: NetEv.send [82, 10] ::
        ((ids.map fun i => NetEv.send (int32ToBytes i)) ++
          [NetEv.send (int32ToBytes (-1)), NetEv.close]) ∧
      res.length = ids.length ∧
      (w.frames.take ids.length).mapM unpack = .ok res := by
  intro w ids res h
  have hb : (receiveBody w ids).2 = .ok res := h
  obtain ⟨h1, h2, h3⟩ := receiveBody_ok w ids res hb
  refine ⟨?_, h2, h3⟩
  show (receiveBody w ids).1 ++ [NetEv.close] = _
  rw [h1]
  simp

theorem receive_request_trace_witness :
    (receive ⟨true, [[79, 75, 10]],
        [[142, 0, 0, 0, 5, 0, 0, 0, 0, 0, 0, 0, 0, 3]]⟩ [5]).1
      = NetEv.connect :: NetEv.send [82, 10] ::
        ((([5] : List Int).map fun i => NetEv.send (int32ToBytes i)) ++
          [NetEv.send (int32ToBytes (-1)), NetEv.close]) ∧
    ([⟨5, 0, 0, Value.int 3⟩] : List Datum).length = ([5] : List Int).length ∧
    ((⟨true, [[79, 75, 10]],
        [[142, 0, 0, 0, 5, 0, 0, 0, 0, 0, 0, 0, 0, 3]]⟩ : Wire).frames.take
      ([5] : List Int).length).mapM unpack = .ok [⟨5, 0, 0, Value.int 3⟩] :=
  receive_request_trace
    ⟨true, [[79, 75, 10]], [[142, 0, 0, 0, 5, 0, 0, 0, 0, 0, 0, 0, 0, 3]]⟩
    [5] [⟨5, 0, 0, Value.int 3⟩] (by rfl)

theorem transmitLoop_no_close (data : List Datum) :
    (transmitLoop data).1.countP isClose = 0 := by
  induction data with
  | nil => rfl
  | cons d rest ih =>
    cases hp : pack d with
    | error e => simp [transmitLoop, hp]
    | ok bytes => simp [transmitLoop, hp, List.countP_cons, isClose, ih]

theorem receiveLoop_no_close (ids : List Int) :
    ∀ frames : List (List Nat), (receiveLoop ids frames).1.countP isClose = 0 := by
  induction ids with
  | nil =>
    intro frames
    simp [receiveLoop, List.countP_cons, isClose]
  | cons i rest ih =>
    intro frames
    cases frames with
    | nil => simp [receiveLoop, List.countP_cons, isClose]
    | cons f fs =>
      cases hu : unpack f with
      | error e => simp [receiveLoop, hu, List.countP_cons, isClose]
      | ok d => simp [receiveLoop, hu, List.countP_cons, isClose, ih fs]

theorem transmitBody_no_close (w : Wire) (data : List Datum) :
    (transmitBody w data).1.countP isClose = 0 := by
  unfold transmitBody
  by_cases hconn : w.connectOk = false
  · rw [if_pos hconn]
    simp [List.countP_cons, isClose]
  · rw [if_neg hconn]
    by_cases hline : lineOk (w.lines.headD []) = false
    · rw [if_pos hline]
      simp [List.countP_cons, isClose]
    · rw [if_neg hline]
      cases htl : transmitLoop data with
      | mk evs r =>
        have hevs : evs.countP isClose = 0 := by
          have := transmitLoop_no_close data
          rw [htl] at this
          exact this
        cases r with
        | error e =>
          simp [List.countP_cons, List.countP_append, isClose, hevs]
        | ok u =>
          by_cases hline2 : lineOk (w.lines[1]?.getD []) = false
          · simp [hline2, List.countP_cons, List.countP_append, isClose, hevs]
          · simp [hline2, List.countP_cons, List.countP_append, isClose, hevs]

theorem receiveBody_no_close (w : Wire) (ids : List Int) :
    (receiveBody w ids).1.countP isClose = 0 := by
  unfold receiveBody
  by_cases hconn : w.connectOk = false
  · rw [if_pos hconn]
    simp [List.countP_cons, isClose]
  · rw [if_neg hconn]
    by_cases hline : lineOk (w.lines.headD []) = false
    · rw [if_pos hline]
      simp [List.countP_cons, isClose]
    · rw [if_neg hline]
      simp [List.countP_cons, isClose, receiveLoop_no_close ids w.frames]

/-- C4: on every exit path of a session operation — normal completion,
handshake-validation failure, or a lower-level transport error such as a
connection failure — the socket trace of `Radio.transmit` and of
`Radio.receive` contains exactly one close action, and it is the last
action before the call returns or the error surfaces. -/
theorem session_closes_socket :
    ∀ (w : Wire) (data : List Datum) (ids : List Int),
      ((transmit w data).1.countP isClose = 1 ∧
       (transmit w data).1.getLast? = some NetEv.close) ∧
      ((receive w ids).1.countP isClose = 1 ∧
       (receive w ids).1.getLast? = some NetEv.close) := by
  intro w data ids
  refine ⟨⟨?_, ?_⟩, ?_, ?_⟩
  · show ((transmitBody w data).1 ++ [NetEv.close]).countP isClose = 1
    rw [List.countP_append, transmitBody_no_close]
    rfl
  · show ((transmitBody w data).1 ++ [NetEv.close]).getLast? = some NetEv.close
    exact List.getLast?_concat _
  · show ((receiveBody w ids).1 ++ [NetEv.close]).countP isClose = 1
    rw [List.countP_append, receiveBody_no_close]
    rfl
  · show ((receiveBody w ids).1 ++ [NetEv.close]).getLast? = some NetEv.close
    exact List.getLast?_concat _

end Radio

theorem validateValue_none_iff (format : Int) (h0 : 0 ≤ format) (h5 : format ≤ 5)
    (v : PyVal) : validateValue format v = Option.none ↔ shapeOk format v = true := by
  interval_cases format
  · cases v <;>
      simp [validateValue, shapeOk, isinstanceInt, isinstanceNone, isinstanceBool]
  · cases v <;>
      simp [validateValue, shapeOk, isinstanceInt, isinstanceFloat, isinstanceBool]
  · cases v <;>
      simp [validateValue, shapeOk, isinstanceStr]
  · cases v with
    | tuple l =>
      rcases l with _ | ⟨x, _ | ⟨y, _ | ⟨z, t⟩⟩⟩
      · simp [validateValue, shapeOk, isinstanceTuple, tupleLen]
      · simp [validateValue, shapeOk, isinstanceTuple, tupleLen]
      · cases x <;> cases y <;>
          simp [validateValue, shapeOk, isinstanceTuple, tupleLen, tupleGet,
            isinstanceInt, isinstanceBool, isinstanceStr]
      · simp [validateValue, shapeOk, isinstanceTuple, tupleLen]
    | _ =>
      all_goals
        simp [validateValue, shapeOk, isinstanceTuple]
  · cases v with
    | tuple l =>
      rcases l with _ | ⟨x, _ | ⟨y, _ | ⟨z, t⟩⟩⟩
      · simp [validateValue, shapeOk, isinstanceTuple, tupleLen]
      · simp [validateValue, shapeOk, isinstanceTuple, tupleLen]
      · cases x <;> cases y <;>
          simp [validateValue, shapeOk, isinstanceTuple, tupleLen, tupleGet,
            isinstanceInt, isinstanceFloat, isinstanceBool, isinstanceStr]
      · simp [validateValue, shapeOk, isinstanceTuple, tupleLen]
    | _ =>
      all_goals
        simp [validateValue, shapeOk, isinstanceTuple]
  · cases v <;>
      simp [validateValue, shapeOk, isinstanceInt, isinstanceFloat, isinstanceBool]

/-- C9 counterexample: `Datum(format=INTEGER, value=None)` does not raise —
the code accepts `None` for INTEGER and stores it — although the claim's
own enumeration of matching shapes ("int for INTEGER") excludes `None`,
so "raises a ValueError ... if the value's shape does not match the
format" is false at this concrete input. -/
theorem datum_init_shape_counterexample :
    specValueShape 0 PyVal.none = false ∧
    datumInit Option.none 0 0 PyVal.none
      = .ok ⟨Option.none, 0, 0, PyVal.none⟩ :=
  ⟨rfl, rfl⟩

/-- C9 (amended): `Datum.__init__` raises a ValueError exactly when the
format is outside the six known tags or the value's shape does not match
the format, where the matching shapes are: int (bool excluded) or None
for INTEGER; int or float (bool excluded) for FLOAT and EXPONENT; str for
TEXT; an (int-excluding-bool, str) tuple for INTEGER_WITH_TEXT; an
(int-or-float-excluding-bool, str) tuple for FLOAT_WITH_TEXT — and
otherwise succeeds with all four fields stored. -/
theorem datum_init_validates :
    ∀ (id : Option Int) (format : Int) (timestamp : Int) (v : PyVal),
      ((datumInit id format timestamp v).isOk
        = (formatKnown format && shapeOk format v)) ∧
      (formatKnown format = true → shapeOk format v = true →
        datumInit id format timestamp v = .ok ⟨id, format, timestamp, v⟩) := by
  intro id format timestamp v
  constructor
  · by_cases hk : formatKnown format = false
    · unfold datumInit
      rw [if_pos hk]
      simp [hk, Except.isOk, Except.toBool]
    · have hk' : formatKnown format = true := by
        revert hk
        cases formatKnown format <;> simp
      have h05 : 0 ≤ format ∧ format ≤ 5 := by
        simpa [formatKnown] using hk'
      unfold datumInit
      rw [if_neg (by rw [hk']; simp)]
      cases hv : validateValue format v with
      | some e =>
        have hsh : shapeOk format v = false := by
          cases hs : shapeOk format v
          · rfl
          · rw [← validateValue_none_iff format h05.1 h05.2 v] at hs
            rw [hv] at hs
            exact Option.noConfusion hs
        simp [hv, hsh, hk', Except.isOk, Except.toBool]
      | none =>
        have hsh : shapeOk format v = true :=
          (validateValue_none_iff format h05.1 h05.2 v).mp hv
        simp [hv, hsh, hk', Except.isOk, Except.toBool]
  · intro hk hsh
    have h05 : 0 ≤ format ∧ format ≤ 5 := by
      simpa [formatKnown] using hk
    have hv : validateValue format v = Option.none :=
      (validateValue_none_iff format h05.1 h05.2 v).mpr hsh
    unfold datumInit
    rw [if_neg (by rw [hk]; simp), hv]

theorem datum_init_validates_witness :
    datumInit (some 3) 0 7 (PyVal.int 42) = .ok ⟨some 3, 0, 7, PyVal.int 42⟩ :=
  (datum_init_validates (some 3) 0 7 (PyVal.int 42)).2 (by rfl) (by rfl)

/-- C10: construction with format INTEGER succeeds exactly when the value
is `None` or a non-bool `int`; `None` is rejected by every other format;
`bool` values are rejected for INTEGER, FLOAT and EXPONENT and as the
numeric first element of both WITH_TEXT tuple formats, even though
`isinstance(bool, int)` holds (`isinstanceInt` is true on bools). -/
theorem integer_none_bool_boundary :
    (∀ (id : Option Int) (ts : Int) (v : PyVal),
      (datumInit id 0 ts v).isOk = isNoneOrInt v) ∧
    (∀ (id : Option Int) (ts : Int),
      (datumInit id 1 ts PyVal.none).isOk = false ∧
      (datumInit id 2 ts PyVal.none).isOk = false ∧
      (datumInit id 3 ts PyVal.none).isOk = false ∧
      (datumInit id 4 ts PyVal.none).isOk = false ∧
      (datumInit id 5 ts PyVal.none).isOk = false) ∧
    (∀ (id : Option Int) (ts : Int) (b : Bool),
      isinstanceInt (PyVal.bool b) = true ∧
      (datumInit id 0 ts (PyVal.bool b)).isOk = false ∧
      (datumInit id 1 ts (PyVal.bool b)).isOk = false ∧
      (datumInit id 5 ts (PyVal.bool b)).isOk = false) ∧
    (∀ (id : Option Int) (ts : Int) (b : Bool) (s : String),
      (datumInit id 3 ts (PyVal.tuple [PyVal.bool b, PyVal.str s])).isOk = false ∧
      (datumInit id 4 ts (PyVal.tuple [PyVal.bool b, PyVal.str s])).isOk = false) := by
  refine ⟨?_, ?_, ?_, ?_⟩
  · intro id ts v
    cases v <;> rfl
  · intro id ts
    exact ⟨rfl, rfl, rfl, rfl, rfl⟩
  · intro id ts b
    exact ⟨rfl, rfl, rfl, rfl⟩
  · intro id ts b s
    exact ⟨rfl, rfl⟩
